import Mathlib

/-
Verification of the background-remover program (backgroundremover.pyw).

The program loads an image, runs GrabCut segmentation to split foreground
from background, composites the original colors with a binary alpha mask,
and writes the result as a PNG.  It also installs/uninstalls a Windows
context-menu entry via the registry, and has an argparse-driven main.

This development shallowly embeds the program: pixels are 8-bit channels
(Fin 256), grids are functions from coordinates, the file system and
registry are explicit stores, and the external library calls (cv2.imread,
cv2.grabCut, cv2.imwrite, winreg) are modelled at their interface.
-/

set_option autoImplicit false

namespace BackgroundRemover

/-- An 8-bit unsigned channel value, as used by numpy uint8 arrays. -/
abbrev Byte := Fin 256

/-- The four GrabCut label codes (cv2.GC_BGD = 0, cv2.GC_FGD = 1,
cv2.GC_PR_BGD = 2, cv2.GC_PR_FGD = 3). -/
inductive GCLabel where
  | bgd
  | fgd
  | prBgd
  | prFgd
deriving DecidableEq, Repr

/-- Numeric code of a GrabCut label, matching the cv2 constants. -/
def GCLabel.code : GCLabel → Nat
  | .bgd => 0
  | .fgd => 1
  | .prBgd => 2
  | .prFgd => 3

/-- A 3-channel BGR pixel (cv2 loads images in BGR channel order). -/
structure Pixel where
  b : Byte
  g : Byte
  r : Byte
deriving DecidableEq, Repr

/-- A 4-channel BGRA pixel, the per-pixel content of the output buffer. -/
structure RGBA where
  b : Byte
  g : Byte
  r : Byte
  a : Byte
deriving DecidableEq, Repr

/-- A decoded image buffer: width, height and a pixel grid.  Coordinates
outside the width/height range are irrelevant to every operation below. -/
structure Image where
  width : Nat
  height : Nat
  pix : Nat → Nat → Pixel

/-- A label mask: same dimensions as the image, one GrabCut label per cell. -/
structure Mask where
  width : Nat
  height : Nat
  label : Nat → Nat → GCLabel

/-- Line 38: mask2 = np.where((mask == cv2.GC_BGD) | (mask == cv2.GC_PR_BGD), 0, 1),
as a per-cell computation on the label codes. -/
def mask2 (label : GCLabel) : Byte :=
  if label.code = 0 ∨ label.code = 2 then 0 else 1

/-- Lines 41-48, per pixel: img_foreground = img * mask2 (uint8 multiply),
alpha = mask2 * 255, and cv2.merge of the three color channels with alpha.
Fin 256 arithmetic is arithmetic mod 256, exactly the uint8 behavior. -/
def compositePixel (p : Pixel) (label : GCLabel) : RGBA :=
  let m := mask2 label
  { b := p.b * m, g := p.g * m, r := p.r * m, a := m * 255 }

/-- Lines 38-48 over the whole grid: the output buffer as a row-major list
of rows, each row a list of BGRA pixels. -/
def compositeBuffer (img : Image) (m : Mask) : List (List RGBA) :=
  (List.range img.height).map fun y =>
    (List.range img.width).map fun x => compositePixel (img.pix x y) (m.label x y)

/-- An initialization rectangle (x, y, width, height). -/
structure Rect where
  x : Nat
  y : Nat
  w : Nat
  h : Nat
deriving DecidableEq, Repr

/-- Lines 29-32: rect = (max(1, int(width * 0.05)), max(1, int(height * 0.05)),
width - int(width * 0.1), height - int(height * 0.1)).
Python truncates the binary64 products toward zero; since the doubles
nearest 0.05 and 0.1 both exceed the exact values by a relative error
below 2^-52, int(n * 0.05) = n / 20 and int(n * 0.1) = n / 10 (Nat
division) for every dimension n a real image can have. -/
def initRect (width height : Nat) : Rect :=
  { x := max 1 (width / 20),
    y := max 1 (height / 20),
    w := width - width / 10,
    h := height - height / 10 }

/-- The iteration count passed to cv2.grabCut on line 35. -/
def defaultIterCount : Nat := 5

/-- Error taxonomy of the segmentation core (spec section 7). -/
inductive SegError where
  | invalidInput
  | convergenceFailure
deriving DecidableEq, Repr

/-- Modelled from the spec: initialization of the label mask (spec section
4.1 step 1): pixels outside the rectangle are definite-background, pixels
inside are probable-foreground.  The estimator itself is cv2.grabCut,
library code not present in this repository. -/
def initMask (imgW imgH : Nat) (r : Rect) : Mask :=
  { width := imgW,
    height := imgH,
    label := fun x y =>
      if r.x ≤ x ∧ x < r.x + r.w ∧ r.y ≤ y ∧ y < r.y + r.h
      then GCLabel.prFgd else GCLabel.bgd }

/-- Modelled from the spec: the Segmentation Estimator (spec section 4.1).
The body of each refinement round (GMM fitting plus min-cut, steps 2a-2d)
lives inside cv2.grabCut and is not in this repository; it is modelled as
an arbitrary in-place relabeling `step` of the label grid, applied exactly
`k` times (step 2).  Input validation follows spec sections 3, 4.1 and 7:
an empty image or a rectangle that is degenerate or out of bounds yields
`InvalidInput`. -/
def segEstimator (img : Image) (r : Rect) (k : Nat)
    (step : (Nat → Nat → GCLabel) → (Nat → Nat → GCLabel)) :
    Except SegError Mask :=
  if 0 < img.width ∧ 0 < img.height ∧ 0 < r.w ∧ 0 < r.h ∧
      r.x + r.w ≤ img.width ∧ r.y + r.h ≤ img.height then
    Except.ok { width := img.width,
                height := img.height,
                label := step^[k] (initMask img.width img.height r).label }
  else
    Except.error SegError.invalidInput

/-- Whether a character is a path separator.  The script targets Windows
(ntpath), where both the backslash and the slash separate components. -/
def isSep (c : Char) : Bool := c == '/' || c == '\\'

/-- Helper for os.path.splitext, scanning the characters LEFT of a candidate
extension dot from right to left: the dot starts an extension only when
some non-dot character precedes it within the basename, i.e. before the
nearest separator (CPython genericpath._splitext leading-dots rule). -/
def hasNonDotBeforeSep : List Char → Bool
  | [] => false
  | c :: cs => if isSep c then false else if c == '.' then hasNonDotBeforeSep cs else true

/-- Helper for os.path.splitext on the REVERSED character list: the length
of the extension (characters strictly after its dot), or none when the
rightmost dot is missing, lies before the last separator, or is preceded
only by dots in the basename. -/
def extLen : List Char → Option Nat
  | [] => none
  | c :: cs =>
    if isSep c then none
    else if c == '.' then (if hasNonDotBeforeSep cs then some 0 else none)
    else (extLen cs).map (· + 1)

/-- os.path.splitext (line 152): split a path into root and extension at the
rightmost dot that follows the rightmost separator and is not a leading dot
of the basename. -/
def splitext (p : String) : String × String :=
  match extLen p.data.reverse with
  | none => (p, "")
  | some n =>
    (String.mk (p.data.take (p.data.length - (n + 1))),
     String.mk (p.data.drop (p.data.length - (n + 1))))

/-- Line 153: output file name, base + "_nobg.png". -/
def outName (f : String) : String := (splitext f).1 ++ "_nobg.png"

/-- A character that is neither a dot nor a path separator (an ordinary
file-name character). -/
def cleanChar (c : Char) : Bool := !(c == '.') && !(isSep c)

/-- The external I/O collaborators at their interface: cv2.imread (None on
an unreadable or undecodable file), cv2.imwrite (False on a failed write),
os.path.exists. -/
structure Env where
  imread : String → Option Image
  imwriteOk : String → Bool
  pathExists : String → Bool

/-- The written-files store: path to fully-written output buffer.
Modelled from the spec: the PNG encoder collaborator (cv2.imwrite, not in
this repository) either fully writes the buffer or leaves no file (spec
section 7: no partial output file left in an inconsistent state). -/
abbrev FileStore := String → Option (List (List RGBA))

/-- Result of one remove_background call: the returned Bool, the messages
printed, and the resulting file store. -/
structure RunResult where
  success : Bool
  messages : List String
  files : FileStore

/-- Lines 11-55: remove_background.  The cv2.grabCut call (line 35) is the
external estimator `gc`, given the image, the inset rectangle and the
iteration count 5; the compositing of lines 38-48 is compositeBuffer.
An unreadable image or a failed write prints a diagnostic and returns
False; only a successful write updates the file store, at the output path
(overwriting any previous file there). -/
def remove_background (gc : Image → Rect → Nat → Mask) (env : Env)
    (fs : FileStore) (inputPath outputPath : String) : RunResult :=
  match env.imread inputPath with
  | none =>
      { success := false,
        messages := ["Error: Could not load image " ++ inputPath],
        files := fs }
  | some img =>
      let rect := initRect img.width img.height
      let rgba := compositeBuffer img (gc img rect defaultIterCount)
      if env.imwriteOk outputPath then
        { success := true,
          messages := [],
          files := fun p => if p = outputPath then some rgba else fs p }
      else
        { success := false,
          messages := ["Error: Could not write image to " ++ outputPath],
          files := fs }

/-- The Windows registry at the granularity the script uses: a list of
(key path, list of (value name, string data)) entries. -/
abbrev Registry := List (String × List (String × String))

/-- Whether a key path exists in the registry. -/
def containsKey (reg : Registry) (p : String) : Bool :=
  reg.any fun e => e.1 == p

/-- winreg.CreateKey: opens the key when it exists, otherwise creates it
(a registry holds at most one key per path). -/
def createKey (reg : Registry) (p : String) : Registry :=
  if containsKey reg p then reg else (p, []) :: reg

/-- winreg.SetValueEx: sets a named value on a key, replacing any previous
value of that name. -/
def setValueEx (reg : Registry) (p name data : String) : Registry :=
  reg.map fun e =>
    if e.1 == p then (e.1, (name, data) :: e.2.filter fun v => !(v.1 == name)) else e

/-- winreg.DeleteKey: removes the key, raising FileNotFoundError (modelled
as Except.error) when it does not exist. -/
def deleteKey (reg : Registry) (p : String) : Except String Registry :=
  if containsKey reg p then Except.ok (reg.filter fun e => !(e.1 == p))
  else Except.error "FileNotFoundError"

/-- The registry key path used for an extension (line 86). -/
def keyPathFor (ext : String) : String :=
  "Software\\Classes\\SystemFileAssociations\\" ++ ext ++ "\\shell\\RemoveBackground"

/-- The extension list of lines 81 and 113. -/
def extensions : List String := [".jpg", ".jpeg", ".png", ".webp"]

/-- Lines 84-101, one loop iteration: create the menu key, set its default
value and icon, create the command subkey and set the command. -/
def registerExt (reg : Registry) (ext command icon : String) : Registry × List String :=
  let kp := keyPathFor ext
  let r1 := createKey reg kp
  let r2 := setValueEx r1 kp "" "Remove Background"
  let r3 := setValueEx r2 kp "Icon" icon
  let r4 := createKey r3 (kp ++ "\\command")
  let r5 := setValueEx r4 (kp ++ "\\command") "" command
  (r5, ["Registered context menu for " ++ ext ++ " files with icon."])

/-- Lines 60-101: register_context_menu, looping over the four extensions. -/
def register_context_menu (reg : Registry) (command icon : String) :
    Registry × List String :=
  extensions.foldl
    (fun acc ext =>
      let step := registerExt acc.1 ext command icon
      (step.1, acc.2 ++ step.2))
    (reg, [])

/-- Lines 116-125, one loop iteration: delete the command subkey, then the
menu key; a FileNotFoundError from either is caught and printed, never
raised (the try/except of lines 117-125). -/
def unregisterExt (reg : Registry) (ext : String) : Registry × List String :=
  let kp := keyPathFor ext
  match deleteKey reg (kp ++ "\\command") with
  | Except.error e => (reg, ["Error unregistering for " ++ ext ++ ": " ++ e])
  | Except.ok r1 =>
    match deleteKey r1 kp with
    | Except.error e => (r1, ["Error unregistering for " ++ ext ++ ": " ++ e])
    | Except.ok r2 => (r2, ["Unregistered context menu for " ++ ext ++ " files."])

/-- Lines 103-125: unregister_context_menu, looping over the four
extensions. -/
def unregister_context_menu (reg : Registry) : Registry × List String :=
  extensions.foldl
    (fun acc ext =>
      let step := unregisterExt acc.1 ext
      (step.1, acc.2 ++ step.2))
    (reg, [])

/-- Number of registry entries whose key path is p. -/
def keyCount (reg : Registry) (p : String) : Nat :=
  reg.countP fun e => e.1 == p

/-- A well-formed registry holds at most one entry per key path. -/
def keysNodup (reg : Registry) : Prop :=
  (reg.map Prod.fst).Nodup

/-- The parsed command line (lines 134-138): two flags and an optional
positional file argument. -/
structure Args where
  register : Bool
  unregister : Bool
  file : Option String

/-- Which branch of main ran. -/
inductive MainAction where
  | registered
  | unregistered
  | processedFile (input output : String)
  | fileMissing (f : String)
  | help
deriving DecidableEq, Repr

/-- Result of one main invocation: branch taken, messages printed, final
file store and registry. -/
structure MainResult where
  action : MainAction
  messages : List String
  files : FileStore
  registry : Registry

/-- Lines 130-160: main.  --register wins over everything, then
--unregister, then the file argument; args.file is truthy only when
present and non-empty; a missing file prints an error; otherwise the
output name is derived with splitext and remove_background runs, followed
by a completion or failure message. -/
def main (gc : Image → Rect → Nat → Mask) (env : Env) (fs : FileStore)
    (reg : Registry) (command icon : String) (args : Args) : MainResult :=
  if args.register then
    let step := register_context_menu reg command icon
    { action := MainAction.registered, messages := step.2, files := fs, registry := step.1 }
  else if args.unregister then
    let step := unregister_context_menu reg
    { action := MainAction.unregistered, messages := step.2, files := fs, registry := step.1 }
  else
    match args.file with
    | some f =>
      if f = "" then
        { action := MainAction.help, messages := [], files := fs, registry := reg }
      else if env.pathExists f then
        let output := outName f
        let res := remove_background gc env fs f output
        { action := MainAction.processedFile f output,
          messages := ("Processing " ++ f ++ " -> " ++ output) :: res.messages ++
            [if res.success then "Background removal complete."
             else "Background removal failed."],
          files := res.files,
          registry := reg }
      else
        { action := MainAction.fileMissing f,
          messages := ["Error: File " ++ f ++ " does not exist."],
          files := fs,
          registry := reg }
    | none =>
      { action := MainAction.help, messages := [], files := fs, registry := reg }

/-- A constant 2x1 test image. -/
def testImage : Image :=
  { width := 2, height := 1, pix := fun _ _ => { b := 7, g := 8, r := 9 } }

/-- A test mask marking column 0 probable-foreground, the rest definite
background. -/
def testMask : Mask :=
  { width := 2, height := 1,
    label := fun x _ => if x = 0 then GCLabel.prFgd else GCLabel.bgd }

/-- A black 10x10 test image. -/
def testImage10 : Image :=
  { width := 10, height := 10, pix := fun _ _ => { b := 0, g := 0, r := 0 } }

/-- A trivial external estimator marking everything probable-foreground. -/
def gc0 : Image → Rect → Nat → Mask :=
  fun img _ _ =>
    { width := img.width, height := img.height, label := fun _ _ => GCLabel.prFgd }

/-- An environment whose image reads and writes all fail. -/
def envFail : Env :=
  { imread := fun _ => none, imwriteOk := fun _ => false, pathExists := fun _ => true }

/-- An environment that decodes every path to the test image and always
writes successfully. -/
def envOk : Env :=
  { imread := fun _ => some testImage, imwriteOk := fun _ => true,
    pathExists := fun _ => true }

/-- An empty file store. -/
def fs0 : FileStore := fun _ => none

/-- A file store that already holds a (stale) file at the output path the
C7 scenario will write to. -/
def fsPre : FileStore := fun p => if p = "d/photo_nobg.png" then some [] else none

/-- C1: for any image buffer and label mask, the output pixel at in-range
coordinates has alpha 255 and the original color channels when the label
is definite- or probable-foreground, and alpha 0 with color (0,0,0)
otherwise. -/
theorem c1_alpha_compositor_correct (img : Image) (m : Mask) (x y : Nat)
    (hx : x < img.width) (hy : y < img.height) :
    ((compositeBuffer img m)[y]?).bind (fun row => row[x]?) =
      some (if m.label x y = GCLabel.fgd ∨ m.label x y = GCLabel.prFgd
            then { b := (img.pix x y).b, g := (img.pix x y).g,
                   r := (img.pix x y).r, a := 255 }
            else { b := 0, g := 0, r := 0, a := 0 }) := by
  have hrow : (compositeBuffer img m)[y]? =
      some ((List.range img.width).map fun x =>
        compositePixel (img.pix x y) (m.label x y)) := by
    simp only [compositeBuffer]
    rw [List.getElem?_map, List.getElem?_range hy]
    rfl
  rw [hrow]
  show ((List.range img.width).map fun x =>
      compositePixel (img.pix x y) (m.label x y))[x]? = _
  rw [List.getElem?_map, List.getElem?_range hx]
  cases h : m.label x y <;> simp [compositePixel, mask2, GCLabel.code, h]

/-- Witness for C1 at the concrete 2x1 image and checkerboard-style mask:
the foreground pixel keeps its color with alpha 255, the background pixel
is fully blanked. -/
theorem c1_alpha_compositor_correct_witness :
    (0 < testImage.width ∧ 1 < testImage.width ∧ 0 < testImage.height) ∧
    ((compositeBuffer testImage testMask)[0]?).bind (fun row => row[0]?) =
      some (if testMask.label 0 0 = GCLabel.fgd ∨ testMask.label 0 0 = GCLabel.prFgd
            then { b := (testImage.pix 0 0).b, g := (testImage.pix 0 0).g,
                   r := (testImage.pix 0 0).r, a := 255 }
            else { b := 0, g := 0, r := 0, a := 0 }) ∧
    ((compositeBuffer testImage testMask)[0]?).bind (fun row => row[1]?) =
      some (if testMask.label 1 0 = GCLabel.fgd ∨ testMask.label 1 0 = GCLabel.prFgd
            then { b := (testImage.pix 1 0).b, g := (testImage.pix 1 0).g,
                   r := (testImage.pix 1 0).r, a := 255 }
            else { b := 0, g := 0, r := 0, a := 0 }) :=
  ⟨⟨by decide, by decide, by decide⟩,
   c1_alpha_compositor_correct testImage testMask 0 0 (by decide) (by decide),
   c1_alpha_compositor_correct testImage testMask 1 0 (by decide) (by decide)⟩

/-- C8: the alpha compositor is a pure, deterministic function of its two
inputs: two runs on the same (image buffer, label mask) pair yield
identical output buffers.  In this embedding the compositor is a pure
function by construction (the source loop reads only its two arguments
and writes only the fresh output arrays), so determinism is equality of
the two results. -/
theorem c8_compositor_deterministic (img1 img2 : Image) (m1 m2 : Mask)
    (h1 : img1 = img2) (h2 : m1 = m2) :
    compositeBuffer img1 m1 = compositeBuffer img2 m2 := by
  rw [h1, h2]

/-- Witness for C8 at the concrete test image and mask. -/
theorem c8_compositor_deterministic_witness :
    testImage = testImage ∧ testMask = testMask ∧
    compositeBuffer testImage testMask = compositeBuffer testImage testMask :=
  ⟨rfl, rfl, c8_compositor_deterministic testImage testImage testMask testMask rfl rfl⟩

/-- C2: a degenerate (zero width or height) or out-of-bounds initialization
rectangle makes the segmentation estimator fail with InvalidInput instead
of proceeding. -/
theorem c2_invalid_rect_rejected (img : Image) (r : Rect) (k : Nat)
    (step : (Nat → Nat → GCLabel) → (Nat → Nat → GCLabel))
    (h : r.w = 0 ∨ r.h = 0 ∨ img.width < r.x + r.w ∨ img.height < r.y + r.h) :
    segEstimator img r k step = Except.error SegError.invalidInput := by
  have hc : ¬ (0 < img.width ∧ 0 < img.height ∧ 0 < r.w ∧ 0 < r.h ∧
      r.x + r.w ≤ img.width ∧ r.y + r.h ≤ img.height) := by
    rintro ⟨h1, h2, h3, h4, h5, h6⟩
    rcases h with h | h | h | h <;> omega
  simp [segEstimator, hc]

/-- Witness for C2 at a zero-width rectangle on the 10x10 image. -/
theorem c2_invalid_rect_rejected_witness :
    (Rect.w { x := 3, y := 3, w := 0, h := 4 } = 0 ∨
     Rect.h { x := 3, y := 3, w := 0, h := 4 } = 0 ∨
     testImage10.width < 3 + 0 ∨ testImage10.height < 3 + 4) ∧
    segEstimator testImage10 { x := 3, y := 3, w := 0, h := 4 } 5 id =
      Except.error SegError.invalidInput :=
  ⟨Or.inl rfl,
   c2_invalid_rect_rejected testImage10 { x := 3, y := 3, w := 0, h := 4 } 5 id
     (Or.inl rfl)⟩

/-- C5: on a valid image and rectangle the segmentation estimator succeeds,
applies the refinement step exactly k times to the initialized label grid,
and the resulting mask has the width and height of the input image. -/
theorem c5_estimator_exact_iterations (img : Image) (r : Rect) (k : Nat)
    (step : (Nat → Nat → GCLabel) → (Nat → Nat → GCLabel))
    (hw : 0 < img.width) (hh : 0 < img.height)
    (hrw : 0 < r.w) (hrh : 0 < r.h)
    (hx : r.x + r.w ≤ img.width) (hy : r.y + r.h ≤ img.height) :
    ∃ m : Mask, segEstimator img r k step = Except.ok m ∧
      m.width = img.width ∧ m.height = img.height ∧
      m.label = step^[k] (initMask img.width img.height r).label := by
  refine ⟨{ width := img.width, height := img.height,
            label := step^[k] (initMask img.width img.height r).label },
          ?_, rfl, rfl, rfl⟩
  unfold segEstimator
  rw [if_pos ⟨hw, hh, hrw, hrh, hx, hy⟩]

/-- Witness for C5 at the 10x10 image, its inset rectangle and the default
iteration count 5. -/
theorem c5_estimator_exact_iterations_witness :
    (0 < testImage10.width ∧ 0 < testImage10.height ∧
     0 < (initRect 10 10).w ∧ 0 < (initRect 10 10).h ∧
     (initRect 10 10).x + (initRect 10 10).w ≤ testImage10.width ∧
     (initRect 10 10).y + (initRect 10 10).h ≤ testImage10.height) ∧
    ∃ m : Mask, segEstimator testImage10 (initRect 10 10) defaultIterCount id =
        Except.ok m ∧
      m.width = testImage10.width ∧ m.height = testImage10.height ∧
      m.label = id^[defaultIterCount] (initMask testImage10.width testImage10.height (initRect 10 10)).label :=
  ⟨⟨by decide, by decide, by decide, by decide, by decide, by decide⟩,
   c5_estimator_exact_iterations testImage10 (initRect 10 10) defaultIterCount id
     (by decide) (by decide) (by decide) (by decide) (by decide) (by decide)⟩

/-- Counterexample to C3 as stated: at a 1x1 image the heuristic rectangle
is (1, 1, 1, 1), which does not lie within the image bounds. -/
theorem c3_initRect_counterexample :
    ¬ ((initRect 1 1).x + (initRect 1 1).w ≤ 1 ∧
       (initRect 1 1).y + (initRect 1 1).h ≤ 1) := by
  decide

/-- C3 (amended): for every image with width and height at least 10, the
heuristic rectangle has positive width and height and lies within the
image bounds (its left and top edges strictly inside). -/
theorem c3_initRect_in_bounds (w h : Nat) (hw : 10 ≤ w) (hh : 10 ≤ h) :
    0 < (initRect w h).x ∧ 0 < (initRect w h).y ∧
    0 < (initRect w h).w ∧ 0 < (initRect w h).h ∧
    (initRect w h).x + (initRect w h).w ≤ w ∧
    (initRect w h).y + (initRect w h).h ≤ h := by
  simp only [initRect]
  omega

/-- Witness for C3 (amended) at a 10x10 image. -/
theorem c3_initRect_in_bounds_witness :
    (10 ≤ 10 ∧ 10 ≤ 10) ∧
    (0 < (initRect 10 10).x ∧ 0 < (initRect 10 10).y ∧
     0 < (initRect 10 10).w ∧ 0 < (initRect 10 10).h ∧
     (initRect 10 10).x + (initRect 10 10).w ≤ 10 ∧
     (initRect 10 10).y + (initRect 10 10).h ≤ 10) :=
  ⟨⟨le_refl 10, le_refl 10⟩, c3_initRect_in_bounds 10 10 (le_refl 10) (le_refl 10)⟩

/-- C4: in file-processing mode an unreadable or undecodable input and an
unwritable output each make remove_background return False with a printed
diagnostic, and make main print the failure diagnostic; in the embedding
these paths are total functions returning normally, mirroring the source,
which reports these failures through None/False return values rather than
exceptions. -/
theorem c4_failure_prints_diagnostic (gc : Image → Rect → Nat → Mask) (env : Env)
    (fs : FileStore) (reg : Registry) (command icon : String)
    (input output f : String) :
    (env.imread input = none →
      (remove_background gc env fs input output).success = false ∧
      (remove_background gc env fs input output).messages ≠ []) ∧
    (env.imwriteOk output = false →
      (remove_background gc env fs input output).success = false ∧
      (remove_background gc env fs input output).messages ≠ []) ∧
    (f ≠ "" → env.pathExists f = true →
      (env.imread f = none ∨ env.imwriteOk (outName f) = false) →
      "Background removal failed." ∈
        (main gc env fs reg command icon
          { register := false, unregister := false, file := some f }).messages) := by
  refine ⟨fun h => ?_, fun h => ?_, fun hne hex hfail => ?_⟩
  · simp [remove_background, h]
  · cases hi : env.imread input with
    | none => simp [remove_background, hi]
    | some img => simp [remove_background, hi, h]
  · have hsucc : (remove_background gc env fs f (outName f)).success = false := by
      rcases hfail with h | h
      · simp [remove_background, h]
      · cases hi : env.imread f with
        | none => simp [remove_background, hi]
        | some img => simp [remove_background, hi, h]
    simp [main, hne, hex, hsucc]

/-- Witness for C4: with an environment whose reads fail, processing a
file returns False, prints a diagnostic, and main reports the failure. -/
theorem c4_failure_prints_diagnostic_witness :
    envFail.imread "a.jpg" = none ∧
    ((remove_background gc0 envFail fs0 "a.jpg" "a_nobg.png").success = false ∧
     (remove_background gc0 envFail fs0 "a.jpg" "a_nobg.png").messages ≠ []) ∧
    ("a.jpg" ≠ "" ∧ envFail.pathExists "a.jpg" = true) ∧
    "Background removal failed." ∈
      (main gc0 envFail fs0 [] "cmd" "icon"
        { register := false, unregister := false, file := some "a.jpg" }).messages :=
  ⟨rfl,
   (c4_failure_prints_diagnostic gc0 envFail fs0 [] "cmd" "icon"
      "a.jpg" "a_nobg.png" "a.jpg").1 rfl,
   ⟨by decide, rfl⟩,
   (c4_failure_prints_diagnostic gc0 envFail fs0 [] "cmd" "icon"
      "a.jpg" "a_nobg.png" "a.jpg").2.2 (by decide) rfl (Or.inl rfl)⟩

/-- C6: when the input image cannot be decoded remove_background returns
False and the file store is untouched; more generally every failing run
leaves the store untouched, and every successful run has fully written the
complete composited buffer at the output path. -/
theorem c6_no_partial_output (gc : Image → Rect → Nat → Mask) (env : Env)
    (fs : FileStore) (input output : String) :
    (env.imread input = none →
      (remove_background gc env fs input output).success = false ∧
      (remove_background gc env fs input output).files = fs) ∧
    ((remove_background gc env fs input output).success = false →
      (remove_background gc env fs input output).files = fs) ∧
    ((remove_background gc env fs input output).success = true →
      ∃ img, env.imread input = some img ∧
        (remove_background gc env fs input output).files output =
          some (compositeBuffer img
            (gc img (initRect img.width img.height) defaultIterCount))) := by
  cases hi : env.imread input with
  | none =>
    refine ⟨fun _ => ⟨?_, ?_⟩, fun _ => ?_, fun hs => ?_⟩ <;>
      simp [remove_background, hi] at *
  | some img =>
    cases hw : env.imwriteOk output with
    | false =>
      refine ⟨fun h => ?_, fun _ => ?_, fun hs => ?_⟩
      · exact absurd h (by simp [hi])
      · simp [remove_background, hi, hw]
      · rw [remove_background] at hs
        simp [hi, hw] at hs
    | true =>
      refine ⟨fun h => ?_, fun hs => ?_, fun _ => ?_⟩
      · exact absurd h (by simp [hi])
      · rw [remove_background] at hs
        simp [hi, hw] at hs
      · exact ⟨img, rfl, by simp [remove_background, hi, hw]⟩

/-- Witness for C6: with failing reads, processing leaves the store
untouched and returns False. -/
theorem c6_no_partial_output_witness :
    envFail.imread "a.jpg" = none ∧
    (remove_background gc0 envFail fs0 "a.jpg" "a_nobg.png").success = false ∧
    (remove_background gc0 envFail fs0 "a.jpg" "a_nobg.png").files = fs0 :=
  ⟨rfl, (c6_no_partial_output gc0 envFail fs0 "a.jpg" "a_nobg.png").1 rfl⟩

/-- C10: main resolves its modes by precedence, not mutual exclusion:
--register always registers, otherwise --unregister unregisters, and a
file is processed exactly when neither flag is set, the argument is a
truthy (non-empty) path, and the file exists. -/
theorem c10_mode_precedence (gc : Image → Rect → Nat → Mask) (env : Env)
    (fs : FileStore) (reg : Registry) (command icon : String) (args : Args) :
    (args.register = true →
      (main gc env fs reg command icon args).action = MainAction.registered) ∧
    (args.register = false → args.unregister = true →
      (main gc env fs reg command icon args).action = MainAction.unregistered) ∧
    (∀ i o, (main gc env fs reg command icon args).action = MainAction.processedFile i o →
      args.register = false ∧ args.unregister = false ∧ args.file = some i ∧
      i ≠ "" ∧ env.pathExists i = true ∧ o = outName i) := by
  obtain ⟨r, u, f⟩ := args
  cases r with
  | true =>
    refine ⟨fun _ => by simp [main], fun h _ => by simp at h, fun i o h => ?_⟩
    simp [main] at h
  | false =>
    cases u with
    | true =>
      refine ⟨fun h => by simp at h, fun _ _ => by simp [main], fun i o h => ?_⟩
      simp [main] at h
    | false =>
      refine ⟨fun h => by simp at h, fun _ h => by simp at h, fun i o h => ?_⟩
      cases f with
      | none => simp [main] at h
      | some f' =>
        by_cases hne : f' = ""
        · simp [main, hne] at h
        · by_cases hex : env.pathExists f' = true
          · simp [main, hne, hex] at h
            obtain ⟨hi, ho⟩ := h
            subst hi
            exact ⟨rfl, rfl, rfl, hne, hex, ho.symm⟩
          · simp [main, hne, hex] at h

/-- Witness for C10: with both flags set, registration wins. -/
theorem c10_mode_precedence_witness :
    (Args.register { register := true, unregister := true, file := some "x.jpg" } = true) ∧
    (main gc0 envFail fs0 [] "cmd" "icon"
      { register := true, unregister := true, file := some "x.jpg" }).action =
      MainAction.registered :=
  ⟨rfl,
   (c10_mode_precedence gc0 envFail fs0 [] "cmd" "icon"
      { register := true, unregister := true, file := some "x.jpg" }).1 rfl⟩

/-- A list beginning with an ordinary character passes the leading-dots
check. -/
theorem hasNonDotBeforeSep_of_clean_head (c : Char) (cs : List Char)
    (h : cleanChar c = true) : hasNonDotBeforeSep (c :: cs) = true := by
  simp only [cleanChar, Bool.and_eq_true, Bool.not_eq_true'] at h
  simp [hasNonDotBeforeSep, h.1, h.2]

/-- A nonempty all-ordinary list followed by anything passes the
leading-dots check. -/
theorem hasNonDotBeforeSep_append (l rest : List Char) (hne : l ≠ [])
    (hcl : l.all cleanChar = true) : hasNonDotBeforeSep (l ++ rest) = true := by
  cases l with
  | nil => exact absurd rfl hne
  | cons c cs =>
    simp only [List.all_cons, Bool.and_eq_true] at hcl
    exact hasNonDotBeforeSep_of_clean_head c (cs ++ rest) hcl.1

/-- extLen on an all-ordinary run followed by a dot: the run is the
extension, provided the leading-dots check on the remainder passes. -/
theorem extLen_clean_append (l rest : List Char)
    (hcl : l.all cleanChar = true) :
    extLen (l ++ '.' :: rest) =
      if hasNonDotBeforeSep rest then some l.length else none := by
  induction l with
  | nil =>
    have h1 : isSep '.' = false := by decide
    have h2 : ('.' == '.') = true := by decide
    simp [extLen, h1, h2]
  | cons c cs ih =>
    simp only [List.all_cons, Bool.and_eq_true] at hcl
    have hc := hcl.1
    simp only [cleanChar, Bool.and_eq_true, Bool.not_eq_true'] at hc
    cases hnd : hasNonDotBeforeSep rest <;>
      simp [extLen, hc.1, hc.2, ih hcl.2, hnd]

/-- splitext on a path of the shape dir/stem.ext, where the stem is
nonempty and stem and extension consist of ordinary characters, splits
exactly at the final dot. -/
theorem splitext_concrete (dir stem ext : String)
    (hne : stem.data ≠ [])
    (hstem : stem.data.all cleanChar = true)
    (hext : ext.data.all cleanChar = true) :
    splitext (dir ++ "/" ++ stem ++ "." ++ ext) = (dir ++ "/" ++ stem, "." ++ ext) := by
  have hdata : (dir ++ "/" ++ stem ++ "." ++ ext).data =
      (dir.data ++ '/' :: stem.data) ++ '.' :: ext.data := by
    simp
  have hrevne : stem.data.reverse ≠ [] := by
    simpa using hne
  have hrevcl : stem.data.reverse.all cleanChar = true := by
    rw [List.all_reverse]; exact hstem
  have hextrev : ext.data.reverse.all cleanChar = true := by
    rw [List.all_reverse]; exact hext
  have hel : extLen (dir ++ "/" ++ stem ++ "." ++ ext).data.reverse =
      some ext.data.length := by
    rw [hdata]
    simp only [List.reverse_append, List.reverse_cons, List.append_assoc,
      List.cons_append, List.singleton_append, List.nil_append]
    rw [extLen_clean_append _ _ hextrev,
      hasNonDotBeforeSep_append _ _ hrevne hrevcl]
    simp
  have hk : ((dir.data ++ '/' :: stem.data) ++ '.' :: ext.data).length -
      (ext.data.length + 1) = (dir.data ++ '/' :: stem.data).length := by
    simp only [List.length_append, List.length_cons]
    omega
  unfold splitext
  rw [hel]
  simp only [hdata]
  rw [hk, List.take_left, List.drop_left]
  have hslash : "/".data = ['/'] := rfl
  have hdot : ".".data = ['.'] := rfl
  have h1 : dir ++ "/" ++ stem = String.mk (dir.data ++ '/' :: stem.data) :=
    String.ext (by simp [hslash])
  have h2 : "." ++ ext = String.mk ('.' :: ext.data) :=
    String.ext (by simp [hdot])
  rw [h1, h2]

/-- C7: processing a file dir/stem.ext produces the output file
dir/stem_nobg.png in the same directory, and the store afterwards holds
the freshly composited buffer at that path regardless of any pre-existing
file there (silent overwrite). -/
theorem c7_output_name_and_overwrite (gc : Image → Rect → Nat → Mask) (env : Env)
    (fs : FileStore) (reg : Registry) (command icon : String)
    (dir stem ext : String) (img : Image)
    (hne : stem.data ≠ [])
    (hstem : stem.data.all cleanChar = true)
    (hext : ext.data.all cleanChar = true)
    (hex : env.pathExists (dir ++ "/" ++ stem ++ "." ++ ext) = true)
    (hread : env.imread (dir ++ "/" ++ stem ++ "." ++ ext) = some img)
    (hwrite : env.imwriteOk (dir ++ "/" ++ stem ++ "_nobg.png") = true) :
    (main gc env fs reg command icon
      { register := false, unregister := false,
        file := some (dir ++ "/" ++ stem ++ "." ++ ext) }).action =
      MainAction.processedFile (dir ++ "/" ++ stem ++ "." ++ ext)
        (dir ++ "/" ++ stem ++ "_nobg.png") ∧
    (main gc env fs reg command icon
      { register := false, unregister := false,
        file := some (dir ++ "/" ++ stem ++ "." ++ ext) }).files
      (dir ++ "/" ++ stem ++ "_nobg.png") =
      some (compositeBuffer img
        (gc img (initRect img.width img.height) defaultIterCount)) := by
  have hout : outName (dir ++ "/" ++ stem ++ "." ++ ext) =
      dir ++ "/" ++ stem ++ "_nobg.png" := by
    rw [outName, splitext_concrete dir stem ext hne hstem hext]
  have hpne : dir ++ "/" ++ stem ++ "." ++ ext ≠ "" := by
    intro h
    have hd := congrArg String.data h
    simp at hd
  refine ⟨?_, ?_⟩ <;>
    simp [main, hpne, hex, hout, remove_background, hread, hwrite]

/-- Witness for C7: processing d/photo.jpg writes d/photo_nobg.png,
overwriting the stale file the store already held at that path. -/
theorem c7_output_name_and_overwrite_witness :
    ("photo".data ≠ [] ∧ "photo".data.all cleanChar = true ∧
     "jpg".data.all cleanChar = true ∧
     envOk.pathExists ("d" ++ "/" ++ "photo" ++ "." ++ "jpg") = true ∧
     envOk.imread ("d" ++ "/" ++ "photo" ++ "." ++ "jpg") = some testImage ∧
     envOk.imwriteOk ("d" ++ "/" ++ "photo" ++ "_nobg.png") = true ∧
     fsPre ("d" ++ "/" ++ "photo" ++ "_nobg.png") = some []) ∧
    (main gc0 envOk fsPre [] "cmd" "icon"
      { register := false, unregister := false,
        file := some ("d" ++ "/" ++ "photo" ++ "." ++ "jpg") }).action =
      MainAction.processedFile ("d" ++ "/" ++ "photo" ++ "." ++ "jpg")
        ("d" ++ "/" ++ "photo" ++ "_nobg.png") ∧
    (main gc0 envOk fsPre [] "cmd" "icon"
      { register := false, unregister := false,
        file := some ("d" ++ "/" ++ "photo" ++ "." ++ "jpg") }).files
      ("d" ++ "/" ++ "photo" ++ "_nobg.png") =
      some (compositeBuffer testImage
        (gc0 testImage (initRect testImage.width testImage.height)
          defaultIterCount)) :=
  ⟨⟨by decide, by decide, by decide, rfl, rfl, rfl, by decide⟩,
   c7_output_name_and_overwrite gc0 envOk fsPre [] "cmd" "icon" "d" "photo" "jpg"
     testImage (by decide) (by decide) (by decide) rfl rfl rfl⟩

/-- Setting a value changes no key paths. -/
theorem keys_setValueEx (reg : Registry) (p n d : String) :
    (setValueEx reg p n d).map Prod.fst = reg.map Prod.fst := by
  induction reg with
  | nil => rfl
  | cons e t ih =>
    simp only [setValueEx, List.map_cons] at ih ⊢
    rw [ih]
    by_cases h : (e.1 == p) = true
    · rw [if_pos h]
    · rw [if_neg h]

/-- Setting a value preserves key-path uniqueness. -/
theorem keysNodup_setValueEx (reg : Registry) (p n d : String)
    (h : keysNodup reg) : keysNodup (setValueEx reg p n d) := by
  unfold keysNodup
  rw [keys_setValueEx]
  exact h

/-- Setting a value does not change which keys exist. -/
theorem containsKey_setValueEx (reg : Registry) (p n d q : String) :
    containsKey (setValueEx reg p n d) q = containsKey reg q := by
  induction reg with
  | nil => rfl
  | cons e t ih =>
    simp only [setValueEx, containsKey, List.map_cons, List.any_cons] at ih ⊢
    rw [ih]
    by_cases h : (e.1 == p) = true
    · rw [if_pos h]
    · rw [if_neg h]

/-- After createKey the key exists. -/
theorem containsKey_createKey_self (reg : Registry) (p : String) :
    containsKey (createKey reg p) p = true := by
  unfold createKey
  by_cases h : containsKey reg p = true
  · rw [if_pos h]
    exact h
  · rw [if_neg h]
    simp only [containsKey, List.any_cons]
    simp

/-- createKey keeps every existing key. -/
theorem containsKey_createKey_mono (reg : Registry) (p q : String)
    (h : containsKey reg q = true) : containsKey (createKey reg p) q = true := by
  unfold createKey
  split
  · exact h
  · simp only [containsKey, List.any_cons]
    rw [containsKey] at h
    simp [h]

/-- createKey preserves key-path uniqueness: it adds an entry only when
the path is absent. -/
theorem keysNodup_createKey (reg : Registry) (p : String)
    (h : keysNodup reg) : keysNodup (createKey reg p) := by
  unfold createKey
  split
  · exact h
  · rename_i hc
    simp only [keysNodup, List.map_cons, List.nodup_cons]
    refine ⟨fun hmem => ?_, h⟩
    rw [List.mem_map] at hmem
    obtain ⟨e, he, hpe⟩ := hmem
    exact hc (by
      rw [containsKey, List.any_eq_true]
      exact ⟨e, he, by rw [hpe]; exact beq_self_eq_true p⟩)

/-- A registry with unique key paths holds at most one entry per path. -/
theorem keyCount_le_one : ∀ (reg : Registry) (p : String),
    keysNodup reg → keyCount reg p ≤ 1
  | [], _, _ => by simp [keyCount]
  | e :: t, p, h => by
    simp only [keysNodup, List.map_cons, List.nodup_cons] at h
    have ih := keyCount_le_one t p h.2
    simp only [keyCount, List.countP_cons] at ih ⊢
    by_cases he : (e.1 == p) = true
    · have hz : t.countP (fun x => x.1 == p) = 0 := by
        rw [List.countP_eq_zero]
        intro a ha hap
        apply h.1
        rw [List.mem_map]
        refine ⟨a, ha, ?_⟩
        have h1 : e.1 = p := by simpa using he
        have h2 : a.1 = p := by simpa using hap
        rw [h2, h1]
      simp [hz, he]
    · simpa [he] using ih

/-- An existing key is counted at least once. -/
theorem keyCount_pos (reg : Registry) (p : String)
    (hc : containsKey reg p = true) : 0 < keyCount reg p := by
  rw [containsKey, List.any_eq_true] at hc
  obtain ⟨e, he, hp⟩ := hc
  unfold keyCount
  exact List.countP_pos_iff.mpr ⟨e, he, hp⟩

/-- In a registry with unique key paths, an existing key is counted
exactly once. -/
theorem keyCount_eq_one (reg : Registry) (p : String)
    (h : keysNodup reg) (hc : containsKey reg p = true) : keyCount reg p = 1 :=
  Nat.le_antisymm (keyCount_le_one reg p h) (keyCount_pos reg p hc)

/-- Registering one extension preserves key-path uniqueness. -/
theorem keysNodup_registerExt (reg : Registry) (e c i : String)
    (h : keysNodup reg) : keysNodup (registerExt reg e c i).1 := by
  unfold registerExt
  exact keysNodup_setValueEx _ _ _ _ (keysNodup_createKey _ _
    (keysNodup_setValueEx _ _ _ _ (keysNodup_setValueEx _ _ _ _
      (keysNodup_createKey _ _ h))))

/-- Registering one extension creates its menu key. -/
theorem registerExt_contains_self (reg : Registry) (e c i : String) :
    containsKey (registerExt reg e c i).1 (keyPathFor e) = true := by
  unfold registerExt
  rw [containsKey_setValueEx]
  apply containsKey_createKey_mono
  rw [containsKey_setValueEx, containsKey_setValueEx]
  exact containsKey_createKey_self reg (keyPathFor e)

/-- Registering one extension keeps every existing key. -/
theorem registerExt_contains_mono (reg : Registry) (e c i q : String)
    (h : containsKey reg q = true) :
    containsKey (registerExt reg e c i).1 q = true := by
  unfold registerExt
  rw [containsKey_setValueEx]
  apply containsKey_createKey_mono
  rw [containsKey_setValueEx, containsKey_setValueEx]
  exact containsKey_createKey_mono _ _ _ h

/-- The registry produced by register_context_menu is the chain of the
four per-extension registrations. -/
theorem register_context_menu_fst (reg : Registry) (c i : String) :
    (register_context_menu reg c i).1 =
      (registerExt (registerExt (registerExt
        (registerExt reg ".jpg" c i).1 ".jpeg" c i).1 ".png" c i).1
        ".webp" c i).1 := by
  simp only [register_context_menu, extensions, List.foldl_cons, List.foldl_nil]

/-- register_context_menu preserves key-path uniqueness. -/
theorem keysNodup_register_context_menu (reg : Registry) (c i : String)
    (h : keysNodup reg) : keysNodup (register_context_menu reg c i).1 := by
  rw [register_context_menu_fst]
  exact keysNodup_registerExt _ _ _ _ (keysNodup_registerExt _ _ _ _
    (keysNodup_registerExt _ _ _ _ (keysNodup_registerExt _ _ _ _ h)))

/-- After register_context_menu every listed extension has its menu key. -/
theorem register_context_menu_contains (reg : Registry) (c i ext : String)
    (hext : ext ∈ extensions) :
    containsKey (register_context_menu reg c i).1 (keyPathFor ext) = true := by
  rw [register_context_menu_fst]
  simp only [extensions, List.mem_cons, List.not_mem_nil, or_false] at hext
  rcases hext with rfl | rfl | rfl | rfl
  · exact registerExt_contains_mono _ _ _ _ _ (registerExt_contains_mono _ _ _ _ _
      (registerExt_contains_mono _ _ _ _ _ (registerExt_contains_self _ _ _ _)))
  · exact registerExt_contains_mono _ _ _ _ _ (registerExt_contains_mono _ _ _ _ _
      (registerExt_contains_self _ _ _ _))
  · exact registerExt_contains_mono _ _ _ _ _ (registerExt_contains_self _ _ _ _)
  · exact registerExt_contains_self _ _ _ _

/-- C9: on a well-formed association store, installing twice leaves
exactly one menu-key entry per listed extension (overwrite, not
duplicate), and uninstalling from an empty store returns normally with
the store unchanged, reporting one caught error per extension. -/
theorem c9_install_twice_uninstall_clean (reg : Registry) (command icon ext : String)
    (h : keysNodup reg) (hext : ext ∈ extensions) :
    keyCount (register_context_menu
        (register_context_menu reg command icon).1 command icon).1
      (keyPathFor ext) = 1 ∧
    (unregister_context_menu []).1 = [] ∧
    (unregister_context_menu []).2.length = 4 := by
  have h1 := keysNodup_register_context_menu reg command icon h
  have h2 := keysNodup_register_context_menu _ command icon h1
  have h3 := register_context_menu_contains
    (register_context_menu reg command icon).1 command icon ext hext
  exact ⟨keyCount_eq_one _ _ h2 h3, rfl, rfl⟩

/-- Witness for C9 at the empty store and the .jpg extension. -/
theorem c9_install_twice_uninstall_clean_witness :
    (keysNodup [] ∧ ".jpg" ∈ extensions) ∧
    keyCount (register_context_menu
        (register_context_menu [] "cmd" "icon").1 "cmd" "icon").1
      (keyPathFor ".jpg") = 1 ∧
    (unregister_context_menu []).1 = [] ∧
    (unregister_context_menu []).2.length = 4 :=
  ⟨⟨List.nodup_nil, by decide⟩,
   c9_install_twice_uninstall_clean [] "cmd" "icon" ".jpg" List.nodup_nil (by decide)⟩

end BackgroundRemover
